import Mathlib

/-!
# Verification of the feedback-loop document workflow

Shallow embedding of `src/src/research_agent/main.py`: the shared context
record, the six stage-handler functions, the router's hand-off guards and
the summary rendering, together with proofs of the specified properties.
-/

/-- Document stage tracking for the feedback loop
(`class DocumentStage(str, Enum)` in the source). -/
inductive DocumentStage where
  | planning
  | drafting
  | review
  | revision
  | final
  deriving DecidableEq, Repr

/-- `class DocumentPlan(BaseModel)`: all fields required; `document_type` is a
plain string in the source (the enumerated set appears only in field
descriptions, not as a validator). -/
structure DocumentPlan where
  outline : List String
  main_arguments : List String
  target_audience : String
  tone : String
  document_type : String
  deriving DecidableEq, Repr

/-- `class DocumentDraft(BaseModel)`. -/
structure DocumentDraft where
  title : String
  content : String
  document_type : String
  deriving DecidableEq, Repr

/-- `class FeedbackItem(BaseModel)`: `severity` is a plain string in the
source; the set {minor, moderate, major, critical} appears only in the field
description, not as a validator. `recommendation` is `Optional[str]`. -/
structure FeedbackItem where
  section_ : String
  feedback : String
  severity : String
  recommendation : Option String
  deriving DecidableEq, Repr

/-- `class FeedbackCollection(BaseModel)`. -/
structure FeedbackCollection where
  items : List FeedbackItem
  overall_assessment : String
  priority_issues : List String
  iteration_needed : Bool
  deriving DecidableEq, Repr

/-- `class RevisedDocument(BaseModel)`. -/
structure RevisedDocument where
  title : String
  content : String
  changes_made : Option (List String)
  document_type : String
  deriving DecidableEq, Repr

/-- `class FinalDocument(BaseModel)`: exactly three fields; in particular it
has no `revision_history` and no `word_count` field. -/
structure FinalDocument where
  title : String
  content : String
  document_type : String
  deriving DecidableEq, Repr

/-- The shared context `ContextVariables(data={...})`.  The document slots are
initialised to the empty dict `{}` in the source and each is only ever
assigned a `model_dump()` of the corresponding record, so they are embedded as
`Option` of that record (`none` = still the initial `{}`). -/
structure ContextVariables where
  loop_started : Bool
  current_iteration : Nat
  max_iterations : Nat
  iteration_needed : Bool
  current_stage : DocumentStage
  document_prompt : String
  document_plan : Option DocumentPlan
  document_draft : Option DocumentDraft
  feedback_collection : Option FeedbackCollection
  revised_document : Option RevisedDocument
  final_document : Option FinalDocument
  has_error : Bool
  error_message : String
  error_stage : String
  deriving DecidableEq, Repr

/-- The initial shared context (`shared_context = ContextVariables(data={...})`). -/
def shared_context : ContextVariables :=
  { loop_started := false
    current_iteration := 0
    max_iterations := 3
    iteration_needed := true
    current_stage := DocumentStage.planning
    document_prompt := ""
    document_plan := none
    document_draft := none
    feedback_collection := none
    revised_document := none
    final_document := none
    has_error := false
    error_message := ""
    error_stage := "" }

/-- `ReplyResult(message=..., context_variables=...)`. -/
structure ReplyResult where
  message : String
  context_variables : ContextVariables
  deriving DecidableEq, Repr

/-- `def start_document_creation(document_prompt, document_type, context_variables)`. -/
def start_document_creation (document_prompt : String) (document_type : String)
    (context_variables : ContextVariables) : ReplyResult :=
  let c := { context_variables with
    loop_started := true
    current_stage := DocumentStage.planning
    document_prompt := document_prompt
    current_iteration := 1 }
  { message := "Document creation started for a " ++ document_type ++
      " based on the provided prompt."
    context_variables := c }

/-- `def submit_document_plan(outline, main_arguments, target_audience, tone,
document_type, context_variables)`. -/
def submit_document_plan (outline : List String) (main_arguments : List String)
    (target_audience : String) (tone : String) (document_type : String)
    (context_variables : ContextVariables) : ReplyResult :=
  let document_plan : DocumentPlan :=
    { outline := outline
      main_arguments := main_arguments
      target_audience := target_audience
      tone := tone
      document_type := document_type }
  let c := { context_variables with
    document_plan := some document_plan
    current_stage := DocumentStage.drafting }
  { message := "Document plan created. Moving to drafting stage."
    context_variables := c }

/-- `def submit_document_draft(title, content, document_type, context_variables)`. -/
def submit_document_draft (title : String) (content : String)
    (document_type : String) (context_variables : ContextVariables) : ReplyResult :=
  let document_draft : DocumentDraft :=
    { title := title, content := content, document_type := document_type }
  let c := { context_variables with
    document_draft := some document_draft
    current_stage := DocumentStage.review }
  { message := "Document draft submitted. Moving to review stage."
    context_variables := c }

/-- `def submit_feedback(items, overall_assessment, priority_issues,
iteration_needed, context_variables)`. -/
def submit_feedback (items : List FeedbackItem) (overall_assessment : String)
    (priority_issues : List String) (iteration_needed : Bool)
    (context_variables : ContextVariables) : ReplyResult :=
  let feedback : FeedbackCollection :=
    { items := items
      overall_assessment := overall_assessment
      priority_issues := priority_issues
      iteration_needed := iteration_needed }
  let c := { context_variables with
    feedback_collection := some feedback
    iteration_needed := feedback.iteration_needed
    current_stage := DocumentStage.revision }
  { message := "Feedback submitted. Moving to revision stage."
    context_variables := c }

/-- `def submit_revised_document(title, content, changes_made, document_type,
context_variables)`: stores the revision, then either loops back to review
(incrementing `current_iteration` and overwriting `document_draft`) or moves
to the final stage. -/
def submit_revised_document (title : String) (content : String)
    (changes_made : Option (List String)) (document_type : String)
    (context_variables : ContextVariables) : ReplyResult :=
  let revised : RevisedDocument :=
    { title := title
      content := content
      changes_made := changes_made
      document_type := document_type }
  let c0 := { context_variables with revised_document := some revised }
  if c0.iteration_needed && decide (c0.current_iteration < c0.max_iterations) then
    let c := { c0 with
      current_iteration := c0.current_iteration + 1
      current_stage := DocumentStage.review
      document_draft := some
        { title := revised.title
          content := revised.content
          document_type := revised.document_type } }
    { message := "Document revised. Starting iteration " ++
        toString c.current_iteration ++ " with another review."
      context_variables := c }
  else
    let c := { c0 with current_stage := DocumentStage.final }
    { message := "Revisions complete. Moving to document finalization."
      context_variables := c }

/-- `def finalize_document(title, content, document_type, context_variables)`. -/
def finalize_document (title : String) (content : String)
    (document_type : String) (context_variables : ContextVariables) : ReplyResult :=
  let final : FinalDocument :=
    { title := title, content := content, document_type := document_type }
  let c := { context_variables with
    final_document := some final
    iteration_needed := false }
  { message := "Document finalized. Feedback loop complete."
    context_variables := c }

/-! ## Handler calls, traces, and the router's guards -/

/-- One handler invocation together with its structured input (the tool
arguments other than `context_variables`). -/
inductive HandlerCall where
  | start (document_prompt document_type : String)
  | submitPlan (outline main_arguments : List String)
      (target_audience tone document_type : String)
  | submitDraft (title content document_type : String)
  | submitFeedback (items : List FeedbackItem) (overall_assessment : String)
      (priority_issues : List String) (iteration_needed : Bool)
  | submitRevision (title content : String) (changes_made : Option (List String))
      (document_type : String)
  | finalize (title content document_type : String)
  deriving DecidableEq, Repr

/-- The state effect of one handler call (the `context_variables` component of
the returned `ReplyResult`). -/
def applyHandler (h : HandlerCall) (c : ContextVariables) : ContextVariables :=
  match h with
  | .start p t => (start_document_creation p t c).context_variables
  | .submitPlan o m a tn t => (submit_document_plan o m a tn t c).context_variables
  | .submitDraft ti co t => (submit_document_draft ti co t c).context_variables
  | .submitFeedback it oa pi itn =>
      (submit_feedback it oa pi itn c).context_variables
  | .submitRevision ti co ch t =>
      (submit_revised_document ti co ch t c).context_variables
  | .finalize ti co t => (finalize_document ti co t c).context_variables

/-- Run a sequence of handler calls, head first. -/
def runCalls : List HandlerCall → ContextVariables → ContextVariables
  | [], c => c
  | h :: t, c => runCalls t (applyHandler h c)

/-- A state is reachable when some sequence of handler calls produces it from
the initial shared context. -/
def Reachable (c : ContextVariables) : Prop :=
  ∃ calls : List HandlerCall, runCalls calls shared_context = c

/-- The router's hand-off conditions (`OnContextCondition` registrations):
each tool is only reached when the corresponding `ExpressionContextCondition`
holds — `start_document_creation` by the initial entry agent before
`loop_started` is set, `submit_document_plan` once
`loop_started == True and current_stage == 'planning'`, and each later tool
at its own stage. -/
def handlerGuard (h : HandlerCall) (c : ContextVariables) : Bool :=
  match h with
  | .start _ _ => !c.loop_started
  | .submitPlan _ _ _ _ _ =>
      c.loop_started && decide (c.current_stage = DocumentStage.planning)
  | .submitDraft _ _ _ => decide (c.current_stage = DocumentStage.drafting)
  | .submitFeedback _ _ _ _ => decide (c.current_stage = DocumentStage.review)
  | .submitRevision _ _ _ _ => decide (c.current_stage = DocumentStage.revision)
  | .finalize _ _ _ => decide (c.current_stage = DocumentStage.final)

/-- One router-guarded step: a handler invoked only when its hand-off
condition holds. -/
def GuardedStep (c c' : ContextVariables) : Prop :=
  ∃ h : HandlerCall, handlerGuard h c = true ∧ c' = applyHandler h c

/-- States reachable through router-guarded steps from the initial context. -/
inductive GuardedReachable : ContextVariables → Prop where
  | init : GuardedReachable shared_context
  | step {c c' : ContextVariables} :
      GuardedReachable c → GuardedStep c c' → GuardedReachable c'

/-- The stage arcs the specification allows:
Planning→Drafting→Review→Revision, then Revision→Review (loop back) or
Revision→Final. -/
def allowedArc (a b : DocumentStage) : Bool :=
  match a, b with
  | .planning, .drafting => true
  | .drafting, .review => true
  | .review, .revision => true
  | .revision, .review => true
  | .revision, .final => true
  | _, _ => false

/-- Whether a call is `start_document_creation`. -/
def isStartCall : HandlerCall → Bool
  | .start _ _ => true
  | _ => false

/-- Whether a sequence contains a `start_document_creation` call. -/
def containsStart (calls : List HandlerCall) : Bool :=
  calls.any isStartCall

/-- Whether a call taken in state `c` is a loop-back: a revision submission
that re-enters the review stage (the `if` branch of
`submit_revised_document`). -/
def isLoopback (c : ContextVariables) (h : HandlerCall) : Bool :=
  match h with
  | .submitRevision _ _ _ _ =>
      c.iteration_needed && decide (c.current_iteration < c.max_iterations)
  | _ => false

/-- Number of loop-backs (re-entries of the review stage via
`submit_revised_document`) along a call sequence run from `c`. -/
def countLoopbacks : ContextVariables → List HandlerCall → Nat
  | _, [] => 0
  | c, h :: t =>
      (if isLoopback c h then 1 else 0) + countLoopbacks (applyHandler h c) t

/-! ## The summary report of `run_feedback_loop_pattern` -/

/-- A value stored in a dumped document dict. -/
inductive CtxValue where
  | str (s : String)
  | strList (l : List String)
  deriving DecidableEq, Repr

/-- `FinalDocument.model_dump()`: the dict with exactly the keys `title`,
`content` and `document_type`. -/
def FinalDocument.model_dump (fd : FinalDocument) : List (String × CtxValue) :=
  [("title", CtxValue.str fd.title),
   ("content", CtxValue.str fd.content),
   ("document_type", CtxValue.str fd.document_type)]

/-- Python `dict.get(key)`: `None` when the key is absent. -/
def dictGet (d : List (String × CtxValue)) (key : String) : Option CtxValue :=
  (d.find? (fun kv => kv.fst == key)).map (fun kv => kv.snd)

/-- Python `dict.get(key, default)`. -/
def dictGetD (d : List (String × CtxValue)) (key : String) (dflt : CtxValue) :
    CtxValue :=
  (dictGet d key).getD dflt

/-- The keys of the shared context dict: all initialised in
`shared_context = ContextVariables(data={...})` and only ever overwritten by
the handlers, never deleted, so Python `key in final_context` reduces to
membership in this list. -/
def contextKeys : List String :=
  ["loop_started", "current_iteration", "max_iterations", "iteration_needed",
   "current_stage", "document_prompt", "document_plan", "document_draft",
   "feedback_collection", "revised_document", "final_document",
   "has_error", "error_message", "error_stage"]

/-- One iteration line of the feedback-loop progression printout: the first
iteration shows planning/drafting/review/revision, later iterations only
review/revision (`if i == 1` in the source). -/
structure IterationChecklist where
  iteration : Nat
  planning : Option Bool
  drafting : Option Bool
  review : Bool
  revision : Bool
  deriving DecidableEq, Repr

/-- The checklist line for iteration `i` (completion is the Python membership
test `'document_plan' in final_context` and so on). -/
def iterationLine (i : Nat) : IterationChecklist :=
  if i = 1 then
    { iteration := i
      planning := some (contextKeys.contains "document_plan")
      drafting := some (contextKeys.contains "document_draft")
      review := contextKeys.contains "feedback_collection"
      revision := contextKeys.contains "revised_document" }
  else
    { iteration := i
      planning := none
      drafting := none
      review := contextKeys.contains "feedback_collection"
      revision := contextKeys.contains "revised_document" }

/-- The data rendered by the summary block of `run_feedback_loop_pattern`:
one field per printed value, in print order. -/
structure DocumentSummary where
  document_type : Option CtxValue
  title : Option CtxValue
  word_count : Option CtxValue
  iterations : Nat
  progression : List IterationChecklist
  finalization_completed : Bool
  revision_history : CtxValue
  content : CtxValue
  deriving DecidableEq, Repr

/-- The summary printed when `final_context.get("final_document")` is truthy
(`none` models the "did not complete successfully" path).  Each field is the
expression printed by the source: `final_context['final_document'].get(...)`
on the dumped final document, `final_context.get('current_iteration')`, the
per-iteration checklist for `i in range(1, current_iteration + 1)`, and
`final_context['final_document'].get('revision_history', [])`. -/
def buildSummary (c : ContextVariables) : Option DocumentSummary :=
  match c.final_document with
  | none => none
  | some fd =>
      let dump := fd.model_dump
      some
        { document_type := dictGet dump "document_type"
          title := dictGet dump "title"
          word_count := dictGet dump "word_count"
          iterations := c.current_iteration
          progression :=
            (List.range c.current_iteration).map (fun j => iterationLine (j + 1))
          finalization_completed := contextKeys.contains "final_document"
          revision_history := dictGetD dump "revision_history" (CtxValue.strList [])
          content := dictGetD dump "content" (CtxValue.str "") }

/-! ## Helper lemmas -/

/-- The loop-back branch of `submit_revised_document`, spelled out. -/
theorem submit_revised_document_loop (ti co : String) (ch : Option (List String))
    (t : String) (c : ContextVariables)
    (hc : (c.iteration_needed && decide (c.current_iteration < c.max_iterations)) = true) :
    (submit_revised_document ti co ch t c).context_variables =
      { c with
        revised_document :=
          some { title := ti, content := co, changes_made := ch, document_type := t }
        current_iteration := c.current_iteration + 1
        current_stage := DocumentStage.review
        document_draft := some { title := ti, content := co, document_type := t } } := by
  simp [submit_revised_document, hc]

/-- The finalisation branch of `submit_revised_document`, spelled out. -/
theorem submit_revised_document_done (ti co : String) (ch : Option (List String))
    (t : String) (c : ContextVariables)
    (hc : (c.iteration_needed && decide (c.current_iteration < c.max_iterations)) = false) :
    (submit_revised_document ti co ch t c).context_variables =
      { c with
        revised_document :=
          some { title := ti, content := co, changes_made := ch, document_type := t }
        current_stage := DocumentStage.final } := by
  simp [submit_revised_document, hc]

/-- No handler modifies `max_iterations`. -/
theorem applyHandler_max_iterations (h : HandlerCall) (c : ContextVariables) :
    (applyHandler h c).max_iterations = c.max_iterations := by
  cases h with
  | submitRevision ti co ch t =>
      by_cases hc :
        (c.iteration_needed && decide (c.current_iteration < c.max_iterations)) = true
      · rw [applyHandler, submit_revised_document_loop ti co ch t c hc]
      · rw [applyHandler,
          submit_revised_document_done ti co ch t c (by simpa using hc)]
  | start p t => rfl
  | submitPlan o m a tn t => rfl
  | submitDraft ti co t => rfl
  | submitFeedback it oa pi itn => rfl
  | finalize ti co t => rfl

/-- `max_iterations` is constant along any run. -/
theorem runCalls_max_iterations (calls : List HandlerCall) :
    ∀ c : ContextVariables, (runCalls calls c).max_iterations = c.max_iterations := by
  induction calls with
  | nil => intro c; rfl
  | cons h t ih =>
      intro c
      rw [runCalls, ih (applyHandler h c), applyHandler_max_iterations]

/-- A non-start handler raises `current_iteration` by exactly the loop-back
indicator. -/
theorem applyHandler_iteration_step (h : HandlerCall) (c : ContextVariables)
    (hh : isStartCall h = false) :
    (applyHandler h c).current_iteration =
      c.current_iteration + (if isLoopback c h then 1 else 0) := by
  cases h with
  | start p t => simp [isStartCall] at hh
  | submitRevision ti co ch t =>
      by_cases hc :
        (c.iteration_needed && decide (c.current_iteration < c.max_iterations)) = true
      · rw [applyHandler, submit_revised_document_loop ti co ch t c hc]
        simp [isLoopback, hc]
      · rw [applyHandler,
          submit_revised_document_done ti co ch t c (by simpa using hc)]
        simp [isLoopback, Bool.eq_false_iff.mpr hc]
  | submitPlan o m a tn t => simp [isLoopback, applyHandler, submit_document_plan]
  | submitDraft ti co t => simp [isLoopback, applyHandler, submit_document_draft]
  | submitFeedback it oa pi itn => simp [isLoopback, applyHandler, submit_feedback]
  | finalize ti co t => simp [isLoopback, applyHandler, finalize_document]

/-- A non-start handler keeps `current_iteration` at or below
`max_iterations`. -/
theorem applyHandler_iteration_le (h : HandlerCall) (c : ContextVariables)
    (hh : isStartCall h = false)
    (hle : c.current_iteration ≤ c.max_iterations) :
    (applyHandler h c).current_iteration ≤ (applyHandler h c).max_iterations := by
  rw [applyHandler_iteration_step h c hh, applyHandler_max_iterations]
  by_cases hb : isLoopback c h = true
  · cases h with
    | start p t => simp [isStartCall] at hh
    | submitRevision ti co ch t =>
        simp only [isLoopback, Bool.and_eq_true, decide_eq_true_eq] at hb
        simp [isLoopback, hb.1, hb.2]
        omega
    | submitPlan o m a tn t => simp [isLoopback] at hb
    | submitDraft ti co t => simp [isLoopback] at hb
    | submitFeedback it oa pi itn => simp [isLoopback] at hb
    | finalize ti co t => simp [isLoopback] at hb
  · simp [Bool.eq_false_iff.mpr hb]
    omega

/-- `containsStart` distributes over cons. -/
theorem containsStart_cons (h : HandlerCall) (t : List HandlerCall) :
    containsStart (h :: t) = (isStartCall h || containsStart t) := by
  simp [containsStart, List.any]

/-- Along a start-free run, the final `current_iteration` is at least the
initial one plus the number of loop-backs taken. -/
theorem runCalls_iteration_ge (calls : List HandlerCall) :
    ∀ c : ContextVariables, containsStart calls = false →
      c.current_iteration + countLoopbacks c calls ≤
        (runCalls calls c).current_iteration := by
  induction calls with
  | nil => intro c _; simp [countLoopbacks, runCalls]
  | cons h t ih =>
      intro c hns
      rw [containsStart_cons] at hns
      have hh : isStartCall h = false := by
        cases hb : isStartCall h <;> simp [hb] at hns ⊢
      have hts : containsStart t = false := by
        cases hb : containsStart t <;> simp [hb, hh] at hns ⊢
      have step := applyHandler_iteration_step h c hh
      have tail := ih (applyHandler h c) hts
      rw [runCalls, countLoopbacks]
      omega

/-- Along a start-free run, `current_iteration ≤ max_iterations` is
preserved. -/
theorem runCalls_iteration_le (calls : List HandlerCall) :
    ∀ c : ContextVariables, containsStart calls = false →
      c.current_iteration ≤ c.max_iterations →
      (runCalls calls c).current_iteration ≤ (runCalls calls c).max_iterations := by
  induction calls with
  | nil => intro c _ hle; simpa [runCalls] using hle
  | cons h t ih =>
      intro c hns hle
      rw [containsStart_cons] at hns
      have hh : isStartCall h = false := by
        cases hb : isStartCall h <;> simp [hb] at hns ⊢
      have hts : containsStart t = false := by
        cases hb : containsStart t <;> simp [hb, hh] at hns ⊢
      have step := applyHandler_iteration_le h c hh hle
      rw [runCalls]
      exact ih (applyHandler h c) hts
        (by rw [applyHandler_max_iterations] at step
            rw [applyHandler_max_iterations]
            exact step)

/-- Every handler preserves `max_iterations = 3` together with
`current_iteration ≤ max_iterations` (the start handler resets the counter
to 1 ≤ 3; the others are covered by `applyHandler_iteration_le`). -/
theorem applyHandler_invariant (h : HandlerCall) (c : ContextVariables)
    (hm : c.max_iterations = 3) (hle : c.current_iteration ≤ c.max_iterations) :
    (applyHandler h c).max_iterations = 3 ∧
      (applyHandler h c).current_iteration ≤ (applyHandler h c).max_iterations := by
  refine ⟨by rw [applyHandler_max_iterations, hm], ?_⟩
  cases h with
  | start p t =>
      simp [applyHandler, start_document_creation]
      omega
  | submitPlan o m a tn t => exact applyHandler_iteration_le _ c rfl hle
  | submitDraft ti co t => exact applyHandler_iteration_le _ c rfl hle
  | submitFeedback it oa pi itn => exact applyHandler_iteration_le _ c rfl hle
  | submitRevision ti co ch t => exact applyHandler_iteration_le _ c rfl hle
  | finalize ti co t => exact applyHandler_iteration_le _ c rfl hle

/-- The invariant of `applyHandler_invariant` lifted to whole runs. -/
theorem runCalls_invariant (calls : List HandlerCall) :
    ∀ c : ContextVariables, c.max_iterations = 3 →
      c.current_iteration ≤ c.max_iterations →
      (runCalls calls c).max_iterations = 3 ∧
        (runCalls calls c).current_iteration ≤ (runCalls calls c).max_iterations := by
  induction calls with
  | nil => intro c hm hle; exact ⟨hm, hle⟩
  | cons h t ih =>
      intro c hm hle
      have step := applyHandler_invariant h c hm hle
      exact ih (applyHandler h c) step.1 step.2

/-! ## Claim theorems -/

/-- Claim C1: `submit_revised_document` always stores the revised document in
state; if `iteration_needed` is set and `current_iteration < max_iterations`
it increments `current_iteration` by exactly one, overwrites the working
draft with the revision's title, content and document type, and sets the
stage to review; otherwise it sets the stage to final (leaving the iteration
count unchanged). -/
theorem submit_revised_document_spec (ti co : String) (ch : Option (List String))
    (t : String) (c : ContextVariables) :
    (submit_revised_document ti co ch t c).context_variables.revised_document =
      some { title := ti, content := co, changes_made := ch, document_type := t } ∧
    (c.iteration_needed = true → c.current_iteration < c.max_iterations →
      (submit_revised_document ti co ch t c).context_variables.current_iteration =
          c.current_iteration + 1 ∧
        (submit_revised_document ti co ch t c).context_variables.document_draft =
          some { title := ti, content := co, document_type := t } ∧
        (submit_revised_document ti co ch t c).context_variables.current_stage =
          DocumentStage.review) ∧
    (¬ (c.iteration_needed = true ∧ c.current_iteration < c.max_iterations) →
      (submit_revised_document ti co ch t c).context_variables.current_stage =
          DocumentStage.final ∧
        (submit_revised_document ti co ch t c).context_variables.current_iteration =
          c.current_iteration) := by
  by_cases hb :
    (c.iteration_needed && decide (c.current_iteration < c.max_iterations)) = true
  · rw [submit_revised_document_loop ti co ch t c hb]
    simp only [Bool.and_eq_true, decide_eq_true_eq] at hb
    exact ⟨rfl, fun _ _ => ⟨rfl, rfl, rfl⟩, fun hn => absurd hb hn⟩
  · rw [submit_revised_document_done ti co ch t c (by simpa using hb)]
    simp only [Bool.and_eq_true, decide_eq_true_eq] at hb
    exact ⟨rfl, fun h1 h2 => absurd ⟨h1, h2⟩ hb, fun _ => ⟨rfl, rfl⟩⟩

/-- Witness for `submit_revised_document_spec`: the loop-back branch at the
initial context (iteration 0 < 3, `iteration_needed` true) and the
finalisation branch at a context that has reached iteration 3. -/
theorem submit_revised_document_spec_witness :
    (submit_revised_document "T" "C" none "report"
        shared_context).context_variables.current_iteration =
      shared_context.current_iteration + 1 ∧
    (submit_revised_document "T" "C" none "report"
        shared_context).context_variables.current_stage = DocumentStage.review ∧
    (submit_revised_document "T" "C" none "report"
        { shared_context with
          current_iteration := 3
          current_stage := DocumentStage.revision }).context_variables.current_stage =
      DocumentStage.final := by
  have h1 := (submit_revised_document_spec "T" "C" none "report" shared_context).2.1
    rfl (by decide)
  have h2 := (submit_revised_document_spec "T" "C" none "report"
      { shared_context with
        current_iteration := 3
        current_stage := DocumentStage.revision }).2.2 (by decide)
  exact ⟨h1.1, h1.2.2, h2.1⟩

/-- Claim C3: in every state reachable from the initial shared context by any
sequence of handler calls, `current_iteration ≤ max_iterations` holds, with
`max_iterations = 3`. -/
theorem reachable_iteration_le_max (c : ContextVariables) (hr : Reachable c) :
    c.current_iteration ≤ c.max_iterations ∧ c.max_iterations = 3 := by
  obtain ⟨calls, hc⟩ := hr
  have h := runCalls_invariant calls shared_context rfl (by decide)
  rw [hc] at h
  exact ⟨h.2, h.1⟩

/-- Witness for `reachable_iteration_le_max`: the state after a concrete
start call is reachable and satisfies the bound. -/
theorem reachable_iteration_le_max_witness :
    (runCalls [HandlerCall.start "p" "report"] shared_context).current_iteration ≤
      (runCalls [HandlerCall.start "p" "report"] shared_context).max_iterations ∧
    (runCalls [HandlerCall.start "p" "report"] shared_context).max_iterations = 3 :=
  reachable_iteration_le_max _ ⟨[HandlerCall.start "p" "report"], rfl⟩

/-- Claim C4: for all structured inputs, the call sequence start, plan,
draft, feedback with `iteration_needed = false`, revision, run from the
initial context, ends with stage final and `current_iteration = 1`. -/
theorem single_iteration_run (p dt : String) (o m : List String)
    (ta tn t1 ti1 co1 t2 : String) (its : List FeedbackItem) (oa : String)
    (pis : List String) (ti2 co2 : String) (ch : Option (List String)) (t3 : String) :
    (runCalls
        [HandlerCall.start p dt,
         HandlerCall.submitPlan o m ta tn t1,
         HandlerCall.submitDraft ti1 co1 t2,
         HandlerCall.submitFeedback its oa pis false,
         HandlerCall.submitRevision ti2 co2 ch t3] shared_context).current_stage =
      DocumentStage.final ∧
    (runCalls
        [HandlerCall.start p dt,
         HandlerCall.submitPlan o m ta tn t1,
         HandlerCall.submitDraft ti1 co1 t2,
         HandlerCall.submitFeedback its oa pis false,
         HandlerCall.submitRevision ti2 co2 ch t3] shared_context).current_iteration =
      1 :=
  ⟨rfl, rfl⟩

/-- Claim C7 (amended): `start_document_creation` sets the stage to planning,
sets `current_iteration = 1`, stores the prompt and marks the loop started,
for every prompt — including the empty one; it performs no non-emptiness
check. -/
theorem start_document_creation_spec (p t : String) (c : ContextVariables) :
    (start_document_creation p t c).context_variables.current_stage =
        DocumentStage.planning ∧
      (start_document_creation p t c).context_variables.current_iteration = 1 ∧
      (start_document_creation p t c).context_variables.document_prompt = p ∧
      (start_document_creation p t c).context_variables.loop_started = true :=
  ⟨rfl, rfl, rfl, rfl⟩

/-- Claim C7 (counterexample): an empty document prompt is not rejected —
`start_document_creation "" ...` starts the loop normally, with no error
recorded and the empty prompt stored. -/
theorem empty_prompt_not_rejected :
    (start_document_creation "" "report" shared_context).context_variables.loop_started =
        true ∧
      (start_document_creation "" "report" shared_context).context_variables.current_stage =
        DocumentStage.planning ∧
      (start_document_creation "" "report" shared_context).context_variables.current_iteration =
        1 ∧
      (start_document_creation "" "report" shared_context).context_variables.document_prompt =
        "" ∧
      (start_document_creation "" "report" shared_context).context_variables.has_error =
        false := by
  decide

/-- Claim C10: `finalize_document` writes only the final document and clears
`iteration_needed`; the stage — and every other field of the context — is
left unchanged. -/
theorem finalize_document_frame (ti co t : String) (c : ContextVariables) :
    (finalize_document ti co t c).context_variables =
        { c with
          final_document := some { title := ti, content := co, document_type := t }
          iteration_needed := false } ∧
      (finalize_document ti co t c).context_variables.current_stage =
        c.current_stage :=
  ⟨rfl, rfl⟩

/-- Claim C2: whatever the feedback says, a run that follows the start call
(any start-free call sequence, in particular one where every feedback pass
requests another iteration) re-enters the review stage through
`submit_revised_document` at most `max_iterations - 1` times; and once
`current_iteration` has reached `max_iterations`, `submit_revised_document`
moves to the final stage even though `iteration_needed` is still true,
leaving the iteration count unchanged (the loop is not re-entered). -/
theorem feedback_loop_bounded :
    (∀ (p t : String) (calls : List HandlerCall),
        containsStart calls = false →
        countLoopbacks
            ((start_document_creation p t shared_context).context_variables) calls ≤
          shared_context.max_iterations - 1) ∧
    (∀ (ti co : String) (ch : Option (List String)) (t : String)
        (c : ContextVariables),
        c.iteration_needed = true →
        c.max_iterations ≤ c.current_iteration →
        (submit_revised_document ti co ch t c).context_variables.current_stage =
            DocumentStage.final ∧
          (submit_revised_document ti co ch t c).context_variables.current_iteration =
            c.current_iteration) := by
  constructor
  · intro p t calls hns
    set c0 := (start_document_creation p t shared_context).context_variables with hc0
    have h1 : c0.current_iteration = 1 := rfl
    have h3 : c0.max_iterations = 3 := rfl
    have hms : shared_context.max_iterations = 3 := rfl
    have hge := runCalls_iteration_ge calls c0 hns
    have hle := runCalls_iteration_le calls c0 hns (by rw [h1, h3]; omega)
    have hmax := runCalls_max_iterations calls c0
    omega
  · intro ti co ch t c hneed hge
    have hnlt : ¬ c.current_iteration < c.max_iterations := by omega
    have hc :
        (c.iteration_needed && decide (c.current_iteration < c.max_iterations)) =
          false := by
      simp [hnlt]
    rw [submit_revised_document_done ti co ch t c hc]
    exact ⟨rfl, rfl⟩

/-- Witness for `feedback_loop_bounded`: a concrete start-free sequence in
which every feedback pass requests another iteration stays within
`max_iterations - 1` loop-backs, and at iteration 3 the revision handler
finalises despite `iteration_needed = true`. -/
theorem feedback_loop_bounded_witness :
    countLoopbacks
        ((start_document_creation "p" "report" shared_context).context_variables)
        [HandlerCall.submitPlan ["s1"] ["m1"] "aud" "formal" "report",
         HandlerCall.submitDraft "T" "C" "report",
         HandlerCall.submitFeedback [] "ok" [] true,
         HandlerCall.submitRevision "T1" "C1" none "report",
         HandlerCall.submitFeedback [] "ok" [] true,
         HandlerCall.submitRevision "T2" "C2" none "report",
         HandlerCall.submitFeedback [] "ok" [] true,
         HandlerCall.submitRevision "T3" "C3" none "report"] ≤
      shared_context.max_iterations - 1 ∧
    (submit_revised_document "T" "C" none "report"
        { shared_context with
          current_iteration := 3
          current_stage := DocumentStage.revision }).context_variables.current_stage =
      DocumentStage.final := by
  constructor
  · exact feedback_loop_bounded.1 "p" "report" _ (by decide)
  · exact (feedback_loop_bounded.2 "T" "C" none "report" _ rfl (by decide)).1

/-- The severity values the specification enumerates for feedback items. -/
def validSeverity (s : String) : Bool :=
  ["minor", "moderate", "major", "critical"].contains s

/-- Claim C5 (counterexample): a feedback item whose severity is outside the
enumerated set is accepted: from the review stage, `submit_feedback` records
no error (`has_error` stays false, the error fields stay empty) and advances
the stage to revision — contradicting the claim that such input sets the
error flag and leaves the stage unchanged. -/
theorem invalid_severity_not_rejected :
    validSeverity "bogus" = false ∧
    (runCalls [HandlerCall.start "p" "report",
        HandlerCall.submitPlan ["s1"] ["m1"] "aud" "formal" "report",
        HandlerCall.submitDraft "T" "C" "report"] shared_context).current_stage =
      DocumentStage.review ∧
    (submit_feedback
        [{ section_ := "intro", feedback := "bad", severity := "bogus",
           recommendation := none }] "ok" [] true
        (runCalls [HandlerCall.start "p" "report",
          HandlerCall.submitPlan ["s1"] ["m1"] "aud" "formal" "report",
          HandlerCall.submitDraft "T" "C" "report"]
          shared_context)).context_variables.has_error = false ∧
    (submit_feedback
        [{ section_ := "intro", feedback := "bad", severity := "bogus",
           recommendation := none }] "ok" [] true
        (runCalls [HandlerCall.start "p" "report",
          HandlerCall.submitPlan ["s1"] ["m1"] "aud" "formal" "report",
          HandlerCall.submitDraft "T" "C" "report"]
          shared_context)).context_variables.error_message = "" ∧
    (submit_feedback
        [{ section_ := "intro", feedback := "bad", severity := "bogus",
           recommendation := none }] "ok" [] true
        (runCalls [HandlerCall.start "p" "report",
          HandlerCall.submitPlan ["s1"] ["m1"] "aud" "formal" "report",
          HandlerCall.submitDraft "T" "C" "report"]
          shared_context)).context_variables.current_stage =
      DocumentStage.revision := by
  decide

/-- Claim C5 (amended): the handlers perform no value-level validation and
never record an error: every handler call leaves `has_error`,
`error_message` and `error_stage` exactly as they were, and
`submit_feedback` advances the stage to revision for every input —
enumerated severity or not.  (A call with a missing or ill-typed field
raises an uncaught pydantic error; nothing in the repository writes the
error fields.) -/
theorem handlers_never_set_error :
    (∀ (h : HandlerCall) (c : ContextVariables),
        (applyHandler h c).has_error = c.has_error ∧
        (applyHandler h c).error_message = c.error_message ∧
        (applyHandler h c).error_stage = c.error_stage) ∧
    (∀ (items : List FeedbackItem) (oa : String) (pis : List String)
        (itn : Bool) (c : ContextVariables),
        (submit_feedback items oa pis itn c).context_variables.current_stage =
          DocumentStage.revision) := by
  constructor
  · intro h c
    cases h with
    | start p t => exact ⟨rfl, rfl, rfl⟩
    | submitPlan o m a tn t => exact ⟨rfl, rfl, rfl⟩
    | submitDraft ti co t => exact ⟨rfl, rfl, rfl⟩
    | submitFeedback it oa pi itn => exact ⟨rfl, rfl, rfl⟩
    | submitRevision ti co ch t =>
        by_cases hb :
          (c.iteration_needed && decide (c.current_iteration < c.max_iterations)) =
            true
        · rw [applyHandler, submit_revised_document_loop ti co ch t c hb]
          exact ⟨rfl, rfl, rfl⟩
        · rw [applyHandler,
            submit_revised_document_done ti co ch t c (by simpa using hb)]
          exact ⟨rfl, rfl, rfl⟩
    | finalize ti co t => exact ⟨rfl, rfl, rfl⟩
  · intro items oa pis itn c
    rfl

/-- Along router-guarded runs, while `loop_started` is still false the stage
is still planning (only `start_document_creation` is dispatched before the
loop starts, and it is the only writer of `loop_started`). -/
theorem guardedReachable_not_started (c : ContextVariables)
    (hr : GuardedReachable c) :
    c.loop_started = false → c.current_stage = DocumentStage.planning := by
  induction hr with
  | init => intro _; rfl
  | @step cp cn hr' hs ih =>
      obtain ⟨h, hg, rfl⟩ := hs
      cases h with
      | start p t =>
          intro hfalse
          simp [applyHandler, start_document_creation] at hfalse
      | submitPlan o m a tn t =>
          intro hfalse
          have hc : cp.loop_started = false := hfalse
          simp [handlerGuard, hc] at hg
      | submitDraft ti co t =>
          intro hfalse
          have hst := ih hfalse
          simp [handlerGuard, hst] at hg
      | submitFeedback it oa pi itn =>
          intro hfalse
          have hst := ih hfalse
          simp [handlerGuard, hst] at hg
      | submitRevision ti co ch t =>
          intro hfalse
          have hc : cp.loop_started = false := by
            by_cases hb :
              (cp.iteration_needed &&
                decide (cp.current_iteration < cp.max_iterations)) = true
            · rw [applyHandler, submit_revised_document_loop ti co ch t cp hb]
                at hfalse
              exact hfalse
            · rw [applyHandler,
                submit_revised_document_done ti co ch t cp (by simpa using hb)]
                at hfalse
              exact hfalse
          have hst := ih hc
          simp [handlerGuard, hst] at hg
      | finalize ti co t =>
          intro hfalse
          have hst := ih hfalse
          simp [handlerGuard, hst] at hg

/-- Claim C6 (counterexample): the handlers themselves never check the
current stage, so over arbitrary handler-call sequences the claimed stage
order fails: from the initial — reachable — state, which is at stage
planning, a `submit_document_draft` call jumps the stage directly to review,
which is not an allowed arc. -/
theorem stage_jump_counterexample :
    shared_context.current_stage = DocumentStage.planning ∧
    runCalls [] shared_context = shared_context ∧
    (applyHandler (HandlerCall.submitDraft "T" "C" "report")
        shared_context).current_stage = DocumentStage.review ∧
    allowedArc DocumentStage.planning DocumentStage.review = false := by
  decide

/-- Claim C6 (amended): along router-guarded invocations — each handler
dispatched only when its hand-off condition holds, as the registered
`OnContextCondition`s arrange — every step from a guarded-reachable state
either leaves the stage unchanged or follows an allowed arc:
planning→drafting→review→revision, then revision→review (loop back) or
revision→final. -/
theorem guarded_stage_transitions (c c' : ContextVariables)
    (hr : GuardedReachable c) (hs : GuardedStep c c') :
    c'.current_stage = c.current_stage ∨
      allowedArc c.current_stage c'.current_stage = true := by
  obtain ⟨h, hg, rfl⟩ := hs
  cases h with
  | start p t =>
      left
      have hns : c.loop_started = false := by simpa [handlerGuard] using hg
      rw [guardedReachable_not_started c hr hns]
      rfl
  | submitPlan o m a tn t =>
      right
      simp only [handlerGuard, Bool.and_eq_true, decide_eq_true_eq] at hg
      rw [hg.2]
      rfl
  | submitDraft ti co t =>
      right
      have hst : c.current_stage = DocumentStage.drafting := by
        simpa [handlerGuard] using hg
      rw [hst]
      rfl
  | submitFeedback it oa pi itn =>
      right
      have hst : c.current_stage = DocumentStage.review := by
        simpa [handlerGuard] using hg
      rw [hst]
      rfl
  | submitRevision ti co ch t =>
      right
      have hst : c.current_stage = DocumentStage.revision := by
        simpa [handlerGuard] using hg
      by_cases hb :
        (c.iteration_needed && decide (c.current_iteration < c.max_iterations)) =
          true
      · rw [applyHandler, submit_revised_document_loop ti co ch t c hb, hst]
        rfl
      · rw [applyHandler,
          submit_revised_document_done ti co ch t c (by simpa using hb), hst]
        rfl
  | finalize ti co t =>
      left
      rfl

/-- Witness for `guarded_stage_transitions`: the initial state is
guarded-reachable and the start call is a guarded step from it. -/
theorem guarded_stage_transitions_witness :
    (applyHandler (HandlerCall.start "p" "report") shared_context).current_stage =
        shared_context.current_stage ∨
      allowedArc shared_context.current_stage
        (applyHandler (HandlerCall.start "p" "report") shared_context).current_stage =
        true :=
  guarded_stage_transitions shared_context _ GuardedReachable.init
    ⟨HandlerCall.start "p" "report", by decide, rfl⟩

/-- Claim C9 (code-bug evidence): on a completed run the summary does render
document type, title, iteration count, the progression checklist and the
final content from handler-written state, but its revision-history section
is empty — `finalize_document` stores only title, content and document type,
so `final_document.get('revision_history', [])` always yields the default
empty list (and `word_count` is always absent) even though a revision was
made and recorded in `revised_document` during the run. -/
theorem summary_revision_history_empty :
    (runCalls
        [HandlerCall.start "p" "report",
         HandlerCall.submitPlan ["s1"] ["m1"] "aud" "formal" "report",
         HandlerCall.submitDraft "T1" "C1" "report",
         HandlerCall.submitFeedback [] "needs work" [] true,
         HandlerCall.submitRevision "T2" "C2" (some ["fixed intro"]) "report",
         HandlerCall.submitFeedback [] "good" [] false,
         HandlerCall.submitRevision "T3" "C3" (some ["polish"]) "report",
         HandlerCall.finalize "TF" "CF" "report"] shared_context).revised_document =
      some { title := "T3", content := "C3", changes_made := some ["polish"],
             document_type := "report" } ∧
    buildSummary
        (runCalls
          [HandlerCall.start "p" "report",
           HandlerCall.submitPlan ["s1"] ["m1"] "aud" "formal" "report",
           HandlerCall.submitDraft "T1" "C1" "report",
           HandlerCall.submitFeedback [] "needs work" [] true,
           HandlerCall.submitRevision "T2" "C2" (some ["fixed intro"]) "report",
           HandlerCall.submitFeedback [] "good" [] false,
           HandlerCall.submitRevision "T3" "C3" (some ["polish"]) "report",
           HandlerCall.finalize "TF" "CF" "report"] shared_context) =
      some
        { document_type := some (CtxValue.str "report")
          title := some (CtxValue.str "TF")
          word_count := none
          iterations := 2
          progression :=
            [{ iteration := 1, planning := some true, drafting := some true,
               review := true, revision := true },
             { iteration := 2, planning := none, drafting := none,
               review := true, revision := true }]
          finalization_completed := true
          revision_history := CtxValue.strList []
          content := CtxValue.str "CF" } := by
  decide

/-- Claim C8: once set by the start handler, `document_prompt` is never
changed again — every non-start handler call, and hence every start-free
call sequence, leaves `document_prompt` exactly as it was. -/
theorem document_prompt_immutable :
    (∀ (h : HandlerCall) (c : ContextVariables), isStartCall h = false →
        (applyHandler h c).document_prompt = c.document_prompt) ∧
    (∀ (calls : List HandlerCall) (c : ContextVariables),
        containsStart calls = false →
        (runCalls calls c).document_prompt = c.document_prompt) := by
  have hstep : ∀ (h : HandlerCall) (c : ContextVariables), isStartCall h = false →
      (applyHandler h c).document_prompt = c.document_prompt := by
    intro h c hh
    cases h with
    | start p t => simp [isStartCall] at hh
    | submitPlan o m a tn t => rfl
    | submitDraft ti co t => rfl
    | submitFeedback it oa pi itn => rfl
    | submitRevision ti co ch t =>
        by_cases hb :
          (c.iteration_needed && decide (c.current_iteration < c.max_iterations)) =
            true
        · rw [applyHandler, submit_revised_document_loop ti co ch t c hb]
        · rw [applyHandler,
            submit_revised_document_done ti co ch t c (by simpa using hb)]
    | finalize ti co t => rfl
  refine ⟨hstep, ?_⟩
  intro calls
  induction calls with
  | nil => intro c _; rfl
  | cons h t ih =>
      intro c hns
      rw [containsStart_cons] at hns
      have hh : isStartCall h = false := by
        cases hb : isStartCall h <;> simp [hb] at hns ⊢
      have hts : containsStart t = false := by
        cases hb : containsStart t <;> simp [hb, hh] at hns ⊢
      rw [runCalls, ih (applyHandler h c) hts, hstep h c hh]

/-- Witness for `document_prompt_immutable`: a concrete start-free run over
all five later handlers keeps the prompt stored by the start call. -/
theorem document_prompt_immutable_witness :
    (runCalls
        [HandlerCall.submitPlan ["s1"] ["m1"] "aud" "formal" "report",
         HandlerCall.submitDraft "T" "C" "report",
         HandlerCall.submitFeedback [] "ok" [] false,
         HandlerCall.submitRevision "T2" "C2" none "report",
         HandlerCall.finalize "TF" "CF" "report"]
        ((start_document_creation "my prompt" "report"
          shared_context).context_variables)).document_prompt =
      ((start_document_creation "my prompt" "report"
        shared_context).context_variables).document_prompt :=
  document_prompt_immutable.2 _ _ (by decide)
